import Mathlib

/-!
Verification of the nutrition-RAG chatbot repository.

The repository consists of three small FastAPI drafts:
* `src/backend/main.py` — upload pipeline (extract, chunk, upsert to a vector
  index) and a retrieval chat endpoint;
* `src/main.py` — a chat endpoint enriched with USDA nutrition lookups;
* `src/frontend/main.py` — a minimal chat-only draft.

Texts are modelled as `List Char`.  External services (LLM completion, vector
index, USDA API) are modelled as oracle inputs: an `Except` value for a call
that can fail, an `Option` value for a call whose failures are swallowed and
reported as `None` by the Python helpers.  Python string primitives used by
the code (`str.split()`, `str.strip()`, `str.lower()`, `str.title()`,
`" ".join`, `str(i)`) are given explicit executable models below.
-/

/-- Whitespace test used by the models of Python `str.split()` / `str.strip()`
(ASCII whitespace, which is what the repository data contains). -/
def pyIsSpace (c : Char) : Bool :=
  c == ' ' || c == '\t' || c == '\n' || c == '\r' || c == '\x0b' || c == '\x0c'

/-- Worker for `pySplit`.  `cur` accumulates the current token in reverse. -/
def pySplitGo (cur : List Char) : List Char → List (List Char)
  | [] => if cur.isEmpty then [] else [cur.reverse]
  | c :: cs =>
    if pyIsSpace c then
      (if cur.isEmpty then [] else [cur.reverse]) ++ pySplitGo [] cs
    else
      pySplitGo (c :: cur) cs

/-- Model of Python `text.split()` (no separator argument): split on runs of
whitespace, never producing empty tokens. -/
def pySplit (text : List Char) : List (List Char) :=
  pySplitGo [] text

/-- Model of Python `" ".join(tokens)`. -/
def joinSpace : List (List Char) → List Char
  | [] => []
  | [w] => w
  | w :: ws => w ++ ' ' :: joinSpace ws

/-- Model of Python `s.strip()`: drop whitespace from both ends. -/
def pyStrip (l : List Char) : List Char :=
  ((l.dropWhile pyIsSpace).reverse.dropWhile pyIsSpace).reverse

/-- Chunks built by the loop in `chunk_text` (src/backend/main.py lines 65-70)
before the final length filter:
`for i in range(0, len(words), 150): chunks.append(" ".join(words[i:i+150]))`.
`range(0, n, 150)` enumerates `150*k` for `k < (n + 149) / 150`, and the slice
`words[i:i+150]` is `(words.drop i).take 150`. -/
def chunk_text_raw (text : List Char) : List (List Char) :=
  (List.range (((pySplit text).length + 149) / 150)).map
    (fun k => joinSpace (((pySplit text).drop (150 * k)).take 150))

/-- Model of `chunk_text` (src/backend/main.py lines 65-71): the windowed
chunks filtered by `len(c.strip()) > 50`. -/
def chunk_text (text : List Char) : List (List Char) :=
  (chunk_text_raw text).filter (fun c => 50 < (pyStrip c).length)

/-- C1: every chunk returned by `chunk_text` has trimmed length strictly
greater than 50 characters; shorter fragments are dropped by the final filter
and never appear in the returned sequence. -/
theorem chunk_text_min_trimmed_length (text c : List Char)
    (h : c ∈ chunk_text text) : 50 < (pyStrip c).length := by
  have h2 := (List.mem_filter.mp h).2
  simpa using h2

/-- Witness for C1 on a concrete 60-character single-token text. -/
theorem chunk_text_min_trimmed_length_witness :
    50 < (pyStrip (List.replicate 60 'a')).length :=
  chunk_text_min_trimmed_length (List.replicate 60 'a') (List.replicate 60 'a')
    (by decide)

/-- Tokens produced by `pySplitGo` are nonempty and contain no whitespace,
provided the running accumulator contains no whitespace. -/
theorem pySplitGo_tokens (cs : List Char) :
    ∀ (cur : List Char), (∀ c ∈ cur, pyIsSpace c = false) →
      ∀ w ∈ pySplitGo cur cs, w ≠ [] ∧ ∀ c ∈ w, pyIsSpace c = false := by
  induction cs with
  | nil =>
    intro cur hcur w hw
    by_cases hc : cur.isEmpty
    · simp [pySplitGo, hc] at hw
    · simp [pySplitGo, hc] at hw
      subst hw
      refine ⟨by simpa using (by simpa using hc : cur ≠ []), ?_⟩
      intro c hcmem
      exact hcur c (List.mem_reverse.mp hcmem)
  | cons a as ih =>
    intro cur hcur w hw
    by_cases hsp : pyIsSpace a
    · simp only [pySplitGo, hsp, if_true] at hw
      rcases List.mem_append.mp hw with hw1 | hw2
      · by_cases hc : cur.isEmpty
        · simp [hc] at hw1
        · simp [hc] at hw1
          subst hw1
          refine ⟨by simpa using (by simpa using hc : cur ≠ []), ?_⟩
          intro c hcmem
          exact hcur c (List.mem_reverse.mp hcmem)
      · exact ih [] (by simp) w hw2
    · simp only [pySplitGo, hsp, if_false] at hw
      refine ih (a :: cur) ?_ w hw
      intro c hc
      rcases List.mem_cons.mp hc with rfl | hc2
      · simpa using hsp
      · exact hcur c hc2

/-- Tokens of `pySplit` are nonempty and whitespace-free. -/
theorem pySplit_tokens (text : List Char) :
    ∀ w ∈ pySplit text, w ≠ [] ∧ ∀ c ∈ w, pyIsSpace c = false :=
  pySplitGo_tokens text [] (by simp)

/-- A list whose head is not whitespace is unchanged by `dropWhile pyIsSpace`. -/
theorem dropWhile_pyIsSpace_eq_self (l : List Char)
    (h : ∀ c, l.head? = some c → pyIsSpace c = false) :
    l.dropWhile pyIsSpace = l := by
  cases l with
  | nil => rfl
  | cons a as => simp [List.dropWhile_cons, h a rfl]

/-- A list with non-whitespace first and last characters is unchanged by
`pyStrip`. -/
theorem pyStrip_eq_self (l : List Char)
    (h1 : ∀ c, l.head? = some c → pyIsSpace c = false)
    (h2 : ∀ c, l.getLast? = some c → pyIsSpace c = false) :
    pyStrip l = l := by
  unfold pyStrip
  rw [dropWhile_pyIsSpace_eq_self l h1]
  rw [dropWhile_pyIsSpace_eq_self l.reverse
    (fun c hc => h2 c (by rwa [List.head?_reverse] at hc))]
  exact List.reverse_reverse l

/-- Joining a nonempty list of nonempty tokens gives a nonempty list. -/
theorem joinSpace_ne_nil (t : List Char) (rest : List (List Char))
    (ht : t ≠ []) : joinSpace (t :: rest) ≠ [] := by
  cases rest with
  | nil => simpa [joinSpace] using ht
  | cons u rs => simp [joinSpace]

/-- Auxiliary: the optional last element of a list is a member. -/
theorem mem_of_head?_eq_some (l : List Char) (c : Char)
    (h : l.head? = some c) : c ∈ l := by
  cases l with
  | nil => simp at h
  | cons a as =>
    simp at h
    subst h
    exact List.mem_cons_self a as

/-- Auxiliary: the optional last element of a list is a member. -/
theorem mem_of_getLast?_eq_some (l : List Char) (c : Char)
    (h : l.getLast? = some c) : c ∈ l := by
  have hh : l.reverse.head? = some c := by rwa [List.head?_reverse]
  exact List.mem_reverse.mp (mem_of_head?_eq_some l.reverse c hh)

/-- The last element of `a ++ b :: bs` is the last element of `b :: bs`. -/
theorem getLast?_append_cons (a : List Char) (b : Char) (bs : List Char) :
    (a ++ b :: bs).getLast? = (b :: bs).getLast? := by
  rw [← List.head?_reverse, ← List.head?_reverse, List.reverse_append]
  cases hrev : (b :: bs).reverse with
  | nil => exact absurd hrev (by simp)
  | cons y ys => simp

/-- The first character of a space-join of nonempty, whitespace-free tokens
is not whitespace. -/
theorem joinSpace_head_nonspace (w : List (List Char))
    (hne : ∀ t ∈ w, t ≠ []) (hns : ∀ t ∈ w, ∀ c ∈ t, pyIsSpace c = false) :
    ∀ c, (joinSpace w).head? = some c → pyIsSpace c = false := by
  intro c hc
  cases w with
  | nil => simp [joinSpace] at hc
  | cons t rest =>
    cases t with
    | nil => exact absurd rfl (hne [] (List.mem_cons_self _ _))
    | cons a t1 =>
      have hca : c = a := by
        cases rest with
        | nil => simpa [joinSpace] using hc.symm
        | cons u rs => simpa [joinSpace] using hc.symm
      subst hca
      exact hns (c :: t1) (List.mem_cons_self _ _) c (List.mem_cons_self _ _)

/-- The last character of a space-join of nonempty, whitespace-free tokens
is not whitespace. -/
theorem joinSpace_getLast_nonspace (w : List (List Char))
    (hne : ∀ t ∈ w, t ≠ []) (hns : ∀ t ∈ w, ∀ c ∈ t, pyIsSpace c = false) :
    ∀ c, (joinSpace w).getLast? = some c → pyIsSpace c = false := by
  induction w with
  | nil => intro c hc; simp [joinSpace] at hc
  | cons t rest ih =>
    intro c hc
    cases rest with
    | nil =>
      have : joinSpace [t] = t := rfl
      rw [this] at hc
      exact hns t (List.mem_cons_self _ _) c (mem_of_getLast?_eq_some t c hc)
    | cons u rs =>
      have hj : joinSpace (t :: u :: rs) = t ++ ' ' :: joinSpace (u :: rs) := rfl
      rw [hj, getLast?_append_cons] at hc
      have hJ : joinSpace (u :: rs) ≠ [] :=
        joinSpace_ne_nil u rs (hne u (by simp))
      cases hJe : joinSpace (u :: rs) with
      | nil => exact absurd hJe hJ
      | cons j js =>
        rw [hJe, List.getLast?_cons_cons] at hc
        rw [← hJe] at hc
        refine ih ?_ ?_ c hc
        · intro x hx; exact hne x (List.mem_cons_of_mem _ hx)
        · intro x hx; exact hns x (List.mem_cons_of_mem _ hx)

/-- The space-join of `n` nonempty tokens has at least `2 * n - 1`
characters. -/
theorem joinSpace_length_ge (w : List (List Char))
    (hne : ∀ t ∈ w, t ≠ []) : 2 * w.length - 1 ≤ (joinSpace w).length := by
  induction w with
  | nil => simp [joinSpace]
  | cons t rest ih =>
    cases rest with
    | nil =>
      have : 0 < t.length := List.length_pos.mpr (hne t (by simp))
      simpa [joinSpace] using this
    | cons u rs =>
      have ht : 0 < t.length := List.length_pos.mpr (hne t (by simp))
      have ihr := ih (fun x hx => hne x (List.mem_cons_of_mem _ hx))
      have hj : joinSpace (t :: u :: rs) = t ++ ' ' :: joinSpace (u :: rs) := rfl
      rw [hj]
      simp only [List.length_append, List.length_cons, List.length_cons] at *
      omega

/-- Trimming a space-join of nonempty, whitespace-free tokens changes
nothing. -/
theorem pyStrip_joinSpace (w : List (List Char))
    (hne : ∀ t ∈ w, t ≠ []) (hns : ∀ t ∈ w, ∀ c ∈ t, pyIsSpace c = false) :
    pyStrip (joinSpace w) = joinSpace w :=
  pyStrip_eq_self (joinSpace w)
    (joinSpace_head_nonspace w hne hns)
    (joinSpace_getLast_nonspace w hne hns)

/-- C5: for any input text splitting into exactly 310 whitespace-delimited
tokens, the chunker groups the tokens into consecutive windows of 150 tokens
rejoined with single spaces, in order: exactly 3 chunks of 150, 150 and 10
tokens before the length filter, and exactly the first 2 chunks are stored
when the 10-token chunk trims to at most 50 characters. -/
theorem chunk_text_310_words (text : List Char)
    (h310 : (pySplit text).length = 310)
    (hlast : (pyStrip (joinSpace ((pySplit text).drop 300))).length ≤ 50) :
    chunk_text_raw text =
      [joinSpace ((pySplit text).take 150),
       joinSpace (((pySplit text).drop 150).take 150),
       joinSpace ((pySplit text).drop 300)] ∧
    ((pySplit text).take 150).length = 150 ∧
    (((pySplit text).drop 150).take 150).length = 150 ∧
    ((pySplit text).drop 300).length = 10 ∧
    chunk_text text =
      [joinSpace ((pySplit text).take 150),
       joinSpace (((pySplit text).drop 150).take 150)] := by
  have hlen1 : ((pySplit text).take 150).length = 150 := by
    rw [List.length_take, h310]
    omega
  have hlen2 : (((pySplit text).drop 150).take 150).length = 150 := by
    rw [List.length_take, List.length_drop, h310]
    omega
  have hlen3 : ((pySplit text).drop 300).length = 10 := by
    rw [List.length_drop, h310]
  have hraw : chunk_text_raw text =
      [joinSpace ((pySplit text).take 150),
       joinSpace (((pySplit text).drop 150).take 150),
       joinSpace ((pySplit text).drop 300)] := by
    unfold chunk_text_raw
    rw [h310]
    have h459 : (310 + 149) / 150 = 3 := by norm_num
    rw [h459]
    have h3 : List.range 3 = [0, 1, 2] := rfl
    rw [h3]
    simp only [List.map_cons, List.map_nil]
    have e0 : 150 * 0 = 0 := by norm_num
    have e1 : 150 * 1 = 150 := by norm_num
    have e2 : 150 * 2 = 300 := by norm_num
    have htake3 : ((pySplit text).drop 300).take 150 = (pySplit text).drop 300 :=
      List.take_of_length_le (by omega)
    rw [e0, e1, e2, List.drop_zero, htake3]
  have htok := pySplit_tokens text
  have hne1 : ∀ t ∈ (pySplit text).take 150, t ≠ [] :=
    fun t ht => (htok t (List.take_subset 150 _ ht)).1
  have hns1 : ∀ t ∈ (pySplit text).take 150, ∀ c ∈ t, pyIsSpace c = false :=
    fun t ht => (htok t (List.take_subset 150 _ ht)).2
  have hne2 : ∀ t ∈ ((pySplit text).drop 150).take 150, t ≠ [] :=
    fun t ht => (htok t (List.drop_subset 150 _ (List.take_subset 150 _ ht))).1
  have hns2 : ∀ t ∈ ((pySplit text).drop 150).take 150, ∀ c ∈ t, pyIsSpace c = false :=
    fun t ht => (htok t (List.drop_subset 150 _ (List.take_subset 150 _ ht))).2
  have hlong1 : 50 < (pyStrip (joinSpace ((pySplit text).take 150))).length := by
    rw [pyStrip_joinSpace _ hne1 hns1]
    have hg := joinSpace_length_ge _ hne1
    rw [hlen1] at hg
    omega
  have hlong2 : 50 < (pyStrip (joinSpace (((pySplit text).drop 150).take 150))).length := by
    rw [pyStrip_joinSpace _ hne2 hns2]
    have hg := joinSpace_length_ge _ hne2
    rw [hlen2] at hg
    omega
  have hshort3 : ¬ 50 < (pyStrip (joinSpace ((pySplit text).drop 300))).length :=
    Nat.not_lt.mpr hlast
  refine ⟨hraw, hlen1, hlen2, hlen3, ?_⟩
  unfold chunk_text
  rw [hraw]
  rw [List.filter_cons, List.filter_cons, List.filter_cons, List.filter_nil]
  simp only [decide_eq_true_eq]
  rw [if_pos hlong1, if_pos hlong2, if_neg hshort3]

/-- Concrete 310-token text for the C5 witness: 300 two-letter words followed
by 10 one-letter words. -/
def wText310 : List Char :=
  (List.replicate 300 "ab ".toList).flatten ++ (List.replicate 10 "c ".toList).flatten

set_option maxRecDepth 40000 in
/-- Witness for C5 at a concrete 310-word text whose last window renders to
19 characters. -/
theorem chunk_text_310_words_witness : (chunk_text wText310).length = 2 := by
  have h := chunk_text_310_words wText310 (by decide) (by decide)
  rw [h.2.2.2.2]
  rfl

/-- Fuel-indexed worker for `natToChars`; fuel `n + 1` always suffices since
the argument shrinks by a factor of 10 each step. -/
def natToCharsGo : Nat → Nat → List Char
  | 0, _ => []
  | fuel + 1, n =>
    if n < 10 then [Nat.digitChar n]
    else natToCharsGo fuel (n / 10) ++ [Nat.digitChar (n % 10)]

/-- Model of Python `str(i)` for a natural number: decimal digits, most
significant first. -/
def natToChars (n : Nat) : List Char :=
  natToCharsGo (n + 1) n

/-- The fuel argument of `natToCharsGo` is irrelevant once it exceeds the
number. -/
theorem natToCharsGo_fuel (fuel : Nat) :
    ∀ (fuel2 n : Nat), n < fuel → n < fuel2 →
      natToCharsGo fuel n = natToCharsGo fuel2 n := by
  induction fuel with
  | zero => intro fuel2 n h1 h2; omega
  | succ f ih =>
    intro fuel2 n h1 h2
    cases fuel2 with
    | zero => omega
    | succ f2 =>
      by_cases hn : n < 10
      · simp [natToCharsGo, hn]
      · have hdiv : n / 10 < n := Nat.div_lt_self (by omega) (by omega)
        simp only [natToCharsGo, hn, if_false]
        rw [ih f2 (n / 10) (by omega) (by omega)]

/-- Unfolding lemma for `natToChars` at any sufficient fuel. -/
theorem natToChars_eq_go (fuel n : Nat) (h : n < fuel) :
    natToChars n = natToCharsGo fuel n :=
  natToCharsGo_fuel (n + 1) fuel n (by omega) h

/-- Decimal renderings are never empty. -/
theorem natToCharsGo_ne_nil (fuel n : Nat) (h : n < fuel) :
    natToCharsGo fuel n ≠ [] := by
  cases fuel with
  | zero => omega
  | succ f =>
    by_cases hn : n < 10
    · simp [natToCharsGo, hn]
    · simp [natToCharsGo, hn]

/-- Digit characters are distinct for distinct digits. -/
theorem digitChar_inj_lt (a b : Nat) (ha : a < 10) (hb : b < 10)
    (h : Nat.digitChar a = Nat.digitChar b) : a = b := by
  interval_cases a <;> interval_cases b <;> first | rfl | exact absurd h (by decide)

/-- Injectivity of the fuel-indexed decimal rendering. -/
theorem natToCharsGo_inj (fuel1 : Nat) :
    ∀ (fuel2 n m : Nat), n < fuel1 → m < fuel2 →
      natToCharsGo fuel1 n = natToCharsGo fuel2 m → n = m := by
  induction fuel1 with
  | zero => intro fuel2 n m h1 h2 h; omega
  | succ f1 ih =>
    intro fuel2 n m h1 h2 h
    cases fuel2 with
    | zero => omega
    | succ f2 =>
      by_cases hn : n < 10 <;> by_cases hm : m < 10
      · simp only [natToCharsGo, hn, hm, if_true] at h
        exact digitChar_inj_lt n m hn hm (by simpa using h)
      · exfalso
        simp only [natToCharsGo, hn, hm, if_true, if_false] at h
        have hne2 : natToCharsGo f2 (m / 10) ≠ [] :=
          natToCharsGo_ne_nil f2 (m / 10) (by omega)
        have hpos : 0 < (natToCharsGo f2 (m / 10)).length := List.length_pos.mpr hne2
        have hlen := congrArg List.length h
        rw [List.length_append] at hlen
        simp only [List.length_cons, List.length_nil] at hlen
        omega
      · exfalso
        simp only [natToCharsGo, hn, hm, if_true, if_false] at h
        have hne2 : natToCharsGo f1 (n / 10) ≠ [] :=
          natToCharsGo_ne_nil f1 (n / 10) (by omega)
        have hpos : 0 < (natToCharsGo f1 (n / 10)).length := List.length_pos.mpr hne2
        have hlen := congrArg List.length h
        rw [List.length_append] at hlen
        simp only [List.length_cons, List.length_nil] at hlen
        omega
      · simp only [natToCharsGo, hn, hm, if_false] at h
        have hpair := List.append_inj' h (by simp)
        have hdivlt : n / 10 < n := Nat.div_lt_self (by omega) (by omega)
        have hdivlt2 : m / 10 < m := Nat.div_lt_self (by omega) (by omega)
        have hdiv := ih f2 (n / 10) (m / 10) (by omega) (by omega) hpair.1
        have hmod : n % 10 = m % 10 := by
          have := hpair.2
          simp at this
          exact digitChar_inj_lt _ _ (Nat.mod_lt n (by omega)) (Nat.mod_lt m (by omega)) this
        omega

/-- Injectivity of the decimal rendering of natural numbers. -/
theorem natToChars_inj (n m : Nat) (h : natToChars n = natToChars m) : n = m :=
  natToCharsGo_inj (n + 1) (m + 1) n m (by omega) (by omega) h

/-- One record of the batch sent to the vector index by `upload`
(src/backend/main.py lines 90-98): an identifier plus metadata
`text` and `filename`. -/
structure UpsertRecord where
  id : List Char
  text : List Char
  filename : List Char
deriving DecidableEq, Repr

/-- Identifier built for the chunk at sequence index `i`:
`f"{filename}_{i}_{uuid4().hex[:8]}"`, with the random suffix passed in as
`suf`. -/
def mkId (fn : List Char) (i : Nat) (suf : List Char) : List Char :=
  fn ++ ('_' :: (natToChars i ++ ('_' :: suf)))

/-- Batch of upsert records built by the loop
`for i, chunk in enumerate(chunks): upsert_data.append(...)`
(src/backend/main.py lines 90-98).  The random suffixes drawn from
`uuid.uuid4().hex[:8]` are supplied by the oracle `suf`; a uuid4 hex suffix
always has exactly 8 characters. -/
def buildUpsertData (fn : List Char) (chunks : List (List Char))
    (suf : Nat → List Char) : List UpsertRecord :=
  (List.range chunks.length).map
    (fun i => ⟨mkId fn i (suf i), chunks.getD i [], fn⟩)

/-- C3: for a chunk sequence of length `N`, `upload` constructs exactly `N`
upsert records, one per chunk in order, with identifier
`filename_index_suffix` and metadata consisting of the chunk text and the
filename; and whenever every random suffix has exactly 8 characters, records
at distinct sequence indices have distinct identifiers. -/
theorem indexer_upsert_records (fn : List Char) (chunks : List (List Char))
    (suf : Nat → List Char) (h8 : ∀ k, (suf k).length = 8) :
    (buildUpsertData fn chunks suf).length = chunks.length ∧
    (∀ i, i < chunks.length →
      (buildUpsertData fn chunks suf).getD i ⟨[], [], []⟩ =
        ⟨mkId fn i (suf i), chunks.getD i [], fn⟩) ∧
    (∀ i j, i ≠ j → mkId fn i (suf i) ≠ mkId fn j (suf j)) := by
  refine ⟨by simp [buildUpsertData], ?_, ?_⟩
  · intro i hi
    unfold buildUpsertData
    rw [List.getD_eq_getElem?_getD, List.getElem?_map, List.getElem?_range hi]
    rfl
  · intro i j hij heq
    unfold mkId at heq
    have h1 := List.append_cancel_left heq
    injection h1 with h1a h1b
    have h2 := List.append_inj' h1b (by simp [h8])
    exact hij (natToChars_inj i j h2.1)

/-- Witness filename for C3. -/
def wFn : List Char := "doc.txt".toList

/-- Witness chunk list for C3. -/
def wChunks : List (List Char) := ["aaa".toList, "bbb".toList]

/-- Witness suffix oracle for C3 (an 8-character hex suffix). -/
def wSuf : Nat → List Char := fun _ => "0123abcd".toList

/-- Witness for C3 at a two-chunk batch with identical random suffixes: two
records, distinct identifiers. -/
theorem indexer_upsert_records_witness :
    (buildUpsertData wFn wChunks wSuf).length = 2 ∧
    mkId wFn 0 (wSuf 0) ≠ mkId wFn 1 (wSuf 1) := by
  have h := indexer_upsert_records wFn wChunks wSuf (fun k => rfl)
  exact ⟨h.1.trans (by rfl), h.2.2 0 1 (by omega)⟩

/-- Model of Python `s.lower()`. -/
def pyLower (l : List Char) : List Char := l.map Char.toLower

/-- Does the second list start with the first? -/
def startsWithChars : List Char → List Char → Bool
  | [], _ => true
  | _ :: _, [] => false
  | n :: ns, h :: hs => n == h && startsWithChars ns hs

/-- Model of Python substring containment `needle in haystack`: does `needle`
occur contiguously in the second list? -/
def containsChars (needle : List Char) : List Char → Bool
  | [] => needle.isEmpty
  | h :: hs => startsWithChars needle (h :: hs) || containsChars needle hs

/-- Trigger keywords for USDA enrichment (src/main.py line 193). -/
def food_keywords : List (List Char) :=
  ["calories".toList, "protein".toList, "nutrition".toList, "nutrients".toList,
   "vitamin".toList, "mineral".toList]

/-- Fixed vocabulary of food names scanned in order (src/main.py line 201). -/
def food_indicators : List (List Char) :=
  ["chicken".toList, "beef".toList, "apple".toList, "banana".toList,
   "rice".toList, "bread".toList, "milk".toList, "egg".toList, "fish".toList,
   "salmon".toList, "broccoli".toList, "spinach".toList, "cheese".toList,
   "yogurt".toList, "oats".toList, "quinoa".toList, "almonds".toList,
   "avocado".toList]

/-- Keyword gate of the enricher (src/main.py line 194):
`any(keyword in request.message.lower() for keyword in food_keywords)`.
Python `in` on strings is substring containment. -/
def enrichmentTriggered (message : List Char) : Bool :=
  food_keywords.any (fun k => containsChars k (pyLower message))

/-- Foods detected in the message (src/main.py lines 196-205): the vocabulary
scan runs only when the keyword gate fired, and matches by substring
containment (`if food in request.message.lower()`), not by tokens. -/
def potential_foods (message : List Char) : List (List Char) :=
  if enrichmentTriggered message then
    food_indicators.filter (fun food => containsChars food (pyLower message))
  else []

/-- Food term the enricher submits to the USDA search (src/main.py lines
208-210): the first detected food, if any. -/
def selectedFood (message : List Char) : Option (List Char) :=
  (potential_foods message).head?

/-- Counterexample to C6: for the chat message `price of gold` the enricher
does not trigger at all — none of the trigger keywords (calories, protein,
nutrition, nutrients, vitamin, mineral) occurs in the message — so no food
term, in particular not `rice`, is ever selected. -/
theorem enricher_price_of_gold_not_triggered :
    enrichmentTriggered "price of gold".toList = false ∧
    selectedFood "price of gold".toList = none := by decide

/-- C6 (amended): when a trigger keyword is also present, as in the message
`calories in the price of gold`, the enricher does trigger and selects the
food term `rice` by substring containment, `rice` occurring inside `price`. -/
theorem enricher_selects_rice_substring :
    enrichmentTriggered "calories in the price of gold".toList = true ∧
    selectedFood "calories in the price of gold".toList = some "rice".toList := by
  decide

/-- Worker for `pyTitle`: the flag records whether the previous character was
a letter. -/
def pyTitleGo : Bool → List Char → List Char
  | _, [] => []
  | prev, c :: cs =>
    (if c.isAlpha then (if prev then c.toLower else c.toUpper) else c) ::
      pyTitleGo c.isAlpha cs

/-- Model of Python `s.title()` on the ASCII labels used by the formatter:
uppercase a letter that follows a non-letter, lowercase the others. -/
def pyTitle (l : List Char) : List Char := pyTitleGo false l

/-- One entry of the `foodNutrients` array of a USDA detail record, as read
by `format_nutrition_data`: `nutrient.nutrient.name`, `nutrient.amount` and
`nutrient.nutrient.unitName`.  The amount is a JSON number that the code only
ever interpolates into a string, so it is modelled by its rendered text. -/
structure Nutrient where
  name : List Char
  amount : List Char
  unitName : List Char
deriving DecidableEq, Repr

/-- The USDA detail record fields read by `format_nutrition_data`:
`description` and `foodNutrients`. -/
structure FoodData where
  description : List Char
  foodNutrients : List Nutrient
deriving DecidableEq, Repr

/-- The fixed `key_nutrients` dictionary of `format_nutrition_data`
(src/main.py lines 126-137), mapping full USDA nutrient names to short
display labels. -/
def key_nutrients : List (List Char × List Char) :=
  [("Energy".toList, "calories".toList),
   ("Protein".toList, "protein".toList),
   ("Total lipid (fat)".toList, "fat".toList),
   ("Carbohydrate, by difference".toList, "carbs".toList),
   ("Fiber, total dietary".toList, "fiber".toList),
   ("Sugars, total including NLEA".toList, "sugar".toList),
   ("Sodium, Na".toList, "sodium".toList),
   ("Calcium, Ca".toList, "calcium".toList),
   ("Iron, Fe".toList, "iron".toList),
   ("Vitamin C, total ascorbic acid".toList, "vitamin C".toList)]

/-- Dictionary lookup `key_nutrients[nutrient_name]`, defined when
`nutrient_name in key_nutrients`. -/
def lookupLabel (name : List Char) : Option (List Char) :=
  (key_nutrients.find? (fun p => p.1 == name)).map Prod.snd

/-- Header line of the formatted block:
`f"\n**USDA Nutrition Data for {food_name}** (per 100g):\n"`. -/
def nutritionHeader (desc : List Char) : List Char :=
  "\n**USDA Nutrition Data for ".toList ++ desc ++ "** (per 100g):\n".toList

/-- Model of `format_nutrition_data` (src/main.py lines 116-152): starting
from the header, append for each nutrient whose name is a `key_nutrients` key
the bullet `f"• {key_nutrients[name].title()}: {value}{unit}\n"`, and nothing
for any other nutrient. -/
def format_nutrition_data (fd : FoodData) : List Char :=
  fd.foodNutrients.foldl
    (fun acc nut =>
      match lookupLabel nut.name with
      | some label =>
        acc ++ ("• ".toList ++ pyTitle label ++ ": ".toList ++
          nut.amount ++ nut.unitName ++ ['\n'])
      | none => acc)
    (nutritionHeader fd.description)

/-- Declarative per-nutrient contribution: the bullet line for an allow-listed
nutrient, nothing for any other nutrient. -/
def nutrientLine (nut : Nutrient) : List Char :=
  match lookupLabel nut.name with
  | some label =>
    "• ".toList ++ pyTitle label ++ ": ".toList ++
      nut.amount ++ nut.unitName ++ ['\n']
  | none => []

/-- Auxiliary: the formatting fold appends exactly the flattened per-nutrient
lines to whatever accumulator it starts from. -/
theorem format_fold_eq (ns : List Nutrient) :
    ∀ acc : List Char,
      ns.foldl
        (fun acc nut =>
          match lookupLabel nut.name with
          | some label =>
            acc ++ ("• ".toList ++ pyTitle label ++ ": ".toList ++
              nut.amount ++ nut.unitName ++ ['\n'])
          | none => acc)
        acc = acc ++ (ns.map nutrientLine).flatten := by
  induction ns with
  | nil => intro acc; simp
  | cons n rest ih =>
    intro acc
    rw [List.foldl_cons, List.map_cons, List.flatten_cons, ih]
    cases hl : lookupLabel n.name with
    | none => simp [nutrientLine, hl]
    | some label => simp [nutrientLine, hl]

/-- C7 (amended): the formatter output is exactly the fixed header
`f"\n**USDA Nutrition Data for {name}** (per 100g):\n"` followed, in input
order, by one bullet line `f"• {Label}: {amount}{unit}\n"` for each nutrient
whose name is one of the ten `key_nutrients` keys, and by no line for any
nutrient outside that allow-list. -/
theorem format_nutrition_data_characterization (fd : FoodData) :
    format_nutrition_data fd =
      nutritionHeader fd.description ++
        (fd.foodNutrients.map nutrientLine).flatten ∧
    (∀ nut : Nutrient,
      (nutrientLine nut = [] ↔ lookupLabel nut.name = none) ∧
      (lookupLabel nut.name = none ↔
        ¬ nut.name ∈ key_nutrients.map Prod.fst)) := by
  constructor
  · exact format_fold_eq fd.foodNutrients (nutritionHeader fd.description)
  · intro nut
    constructor
    · constructor
      · intro hempty
        cases hl : lookupLabel nut.name with
        | none => rfl
        | some label =>
          rw [nutrientLine, hl] at hempty
          exact absurd (congrArg List.length hempty) (by simp)
      · intro hl
        rw [nutrientLine, hl]
    · rw [lookupLabel, Option.map_eq_none', List.find?_eq_none]
      constructor
      · intro hnone hmem
        rcases List.mem_map.mp hmem with ⟨p, hp, hfst⟩
        exact (by simpa using hnone p hp : ¬ p.1 = nut.name) hfst
      · intro hmem p hp hbeq
        exact hmem (List.mem_map.mpr ⟨p, hp, by simpa using hbeq⟩)

/-- Concrete USDA detail record for the C7 counterexample: one allow-listed
nutrient (`Energy`) and one nutrient literally named `fat`, which is not a
`key_nutrients` key (the key is `Total lipid (fat)`). -/
def fdApple : FoodData :=
  ⟨"Apple".toList,
   [⟨"Energy".toList, "52".toList, "kcal".toList⟩,
    ⟨"fat".toList, "0.2".toList, "g".toList⟩]⟩

/-- Counterexample to C7 as stated: the rendered block never contains the
claimed header text `USDA Nutrition Data for Apple (per 100g):` — the actual
header wraps the name in `**` markers — and the nutrient named `fat`, which
the claim lists in the allow-list, produces no bullet line: the whole output
is the header plus the single `Energy` bullet. -/
theorem format_nutrition_header_differs :
    containsChars "USDA Nutrition Data for Apple (per 100g):".toList
      (format_nutrition_data fdApple) = false ∧
    format_nutrition_data fdApple =
      nutritionHeader "Apple".toList ++ "• Calories: 52kcal\n".toList := by
  decide

/-- One entry of the USDA search response used by the chat handler: only the
`fdcId` field is read (`usda_foods[0].get("fdcId")`). -/
structure USDAFood where
  fdcId : Option Nat
deriving DecidableEq, Repr

/-- Fixed 503 detail of the USDA-variant chat (src/main.py lines 174-177). -/
def claudeUnavailableDetail : List Char :=
  "Claude AI service not available. Please check API key configuration.".toList

/-- Fixed 400 detail of the USDA-variant chat (src/main.py lines 180-184). -/
def emptyMessageDetail : List Char := "Message cannot be empty".toList

/-- Fixed 500 detail of the USDA-variant chat (src/main.py lines 263-266);
note it does not interpolate the underlying error. -/
def genericChatErrorDetail : List Char :=
  "Sorry, I encountered an error processing your nutrition question. Please try again.".toList

/-- Source label for the LLM itself. -/
def sourceClaude : List Char := "Claude AI".toList

/-- Source label for the USDA database. -/
def sourceUSDA : List Char := "USDA FoodData Central".toList

/-- Enrichment context string built by the USDA chat handler (src/main.py
lines 190-219).  `searchRes` is the value of `search_usda_food` (`none` for
a missing key, a non-200 reply or a network error, which that helper
swallows) and `detailsRes` the value of `get_usda_food_details`.  Every
missing or falsy intermediate value leaves the context empty; the test
`if fdc_id:` is Python truthiness, so an id of 0 also skips the details
call. -/
def usda_context (message : List Char) (searchRes : Option (List USDAFood))
    (detailsRes : Option FoodData) : List Char :=
  match selectedFood message with
  | none => []
  | some _ =>
    match searchRes with
    | none => []
    | some [] => []
    | some (f :: _) =>
      match f.fdcId with
      | none => []
      | some fdcId =>
        if fdcId = 0 then []
        else
          match detailsRes with
          | none => []
          | some fd => format_nutrition_data fd

/-- Observable outcome of the USDA-variant chat handler: HTTP status, the
answer text (or the error detail), and the response fields the claims are
about, plus whether the LLM completion call was issued. -/
structure UsdaChatResult where
  status : Nat
  response : List Char
  sources : List (List Char)
  usda_data_used : Bool
  llmInvoked : Bool
deriving DecidableEq, Repr

/-- Model of the `chat` handler of src/main.py (lines 170-266).  The Claude
client availability, the two USDA lookups and the LLM completion are oracle
inputs.  An exception from the LLM call is caught by the handler and turned
into a 500 with a fixed generic detail. -/
def usda_chat (claudeAvailable : Bool) (message : List Char)
    (searchRes : Option (List USDAFood)) (detailsRes : Option FoodData)
    (llmRes : Except (List Char) (List Char)) : UsdaChatResult :=
  if claudeAvailable = false then
    ⟨503, claudeUnavailableDetail, [], false, false⟩
  else if message.isEmpty || (pyStrip message).isEmpty then
    ⟨400, emptyMessageDetail, [], false, false⟩
  else
    match llmRes with
    | .error _ => ⟨500, genericChatErrorDetail, [], false, true⟩
    | .ok answer =>
      ⟨200, answer,
       if (usda_context message searchRes detailsRes).isEmpty then [sourceClaude]
       else [sourceClaude, sourceUSDA],
       !(usda_context message searchRes detailsRes).isEmpty,
       true⟩

/-- One match returned by the vector-index query, as read by the backend
chat handler: `match.metadata` holds the chunk text and the filename. -/
structure RMatch where
  filename : List Char
  text : List Char
deriving DecidableEq, Repr

/-- Observable outcome of the backend chat handler. -/
structure BackendChatResult where
  status : Nat
  response : List Char
  sources : List (List Char)
  relevant_chunks : Option Nat
  llmInvoked : Bool
deriving DecidableEq, Repr

/-- Fixed 503 detail of the backend endpoints. -/
def servicesUnavailableDetail : List Char := "Services not initialized".toList

/-- Canned zero-match response of the backend chat handler
(src/backend/main.py lines 126-130). -/
def cannedNoInfo : List Char :=
  "I don\x27t have information about that. Please upload nutrition documents first!".toList

/-- Model of the `chat` handler of src/backend/main.py (lines 113-161).
The index query and the LLM completion are oracle inputs; a raised exception
from either is the `Except.error` case and becomes a 500 whose detail is
`str(e)`.  Python builds `sources` as `list(set(...))`, whose iteration
order is unspecified; it is modelled as `dedup` of the filenames in match
order, and no claim depends on that order. -/
def backend_chat (available : Bool) (message : List Char)
    (queryRes : Except (List Char) (List RMatch))
    (llmRes : Except (List Char) (List Char)) : BackendChatResult :=
  if available = false then
    ⟨503, servicesUnavailableDetail, [], none, false⟩
  else
    match queryRes with
    | .error e => ⟨500, e, [], none, false⟩
    | .ok [] => ⟨200, cannedNoInfo, [], none, false⟩
    | .ok (m :: ms) =>
      match llmRes with
      | .error e => ⟨500, e, [], none, true⟩
      | .ok answer =>
        ⟨200, answer, ((m :: ms).map RMatch.filename).dedup,
         some (m :: ms).length, true⟩

/-- Counterexample to C2 as stated: the backend chat handler performs no
empty-message validation, so with services available, an empty message and a
non-empty query result the handler invokes the LLM and returns 200, not
400. -/
theorem backend_chat_accepts_empty_message :
    (backend_chat true [] (Except.ok [⟨"f.txt".toList, "text".toList⟩])
      (Except.ok "answer".toList)).llmInvoked = true ∧
    (backend_chat true [] (Except.ok [⟨"f.txt".toList, "text".toList⟩])
      (Except.ok "answer".toList)).status = 200 := by
  decide

/-- C2 (amended): in the USDA-variant chat, when the Claude client is
available, a message that strips to the empty string yields HTTP 400 with
the fixed detail and the LLM is never invoked. -/
theorem usda_chat_empty_message_400 (message : List Char)
    (searchRes : Option (List USDAFood)) (detailsRes : Option FoodData)
    (llmRes : Except (List Char) (List Char))
    (h : pyStrip message = []) :
    usda_chat true message searchRes detailsRes llmRes =
      ⟨400, emptyMessageDetail, [], false, false⟩ := by
  unfold usda_chat
  have hs : (pyStrip message).isEmpty = true := by simp [h]
  simp [hs]

/-- Witness for C2 at a whitespace-only message. -/
theorem usda_chat_empty_message_400_witness :
    usda_chat true "   ".toList none none (Except.ok "hi".toList) =
      ⟨400, emptyMessageDetail, [], false, false⟩ :=
  usda_chat_empty_message_400 "   ".toList none none (Except.ok "hi".toList)
    (by decide)

/-- Counterexample to C4 as stated: the zero-match path is not the only path
through the backend chat handler that bypasses the LLM call — the
503 service-unavailable exit and the 500 query-failure exit also never
invoke the LLM, and neither returns the canned zero-match response. -/
theorem backend_chat_llm_bypass_not_only_zero_match :
    ((backend_chat false "q".toList
        (Except.ok [⟨"f.txt".toList, "t".toList⟩])
        (Except.ok "a".toList)).llmInvoked = false ∧
     (backend_chat false "q".toList
        (Except.ok [⟨"f.txt".toList, "t".toList⟩])
        (Except.ok "a".toList)).status = 503 ∧
     (backend_chat false "q".toList
        (Except.ok [⟨"f.txt".toList, "t".toList⟩])
        (Except.ok "a".toList)).response ≠ cannedNoInfo) ∧
    ((backend_chat true "q".toList (Except.error "index down".toList)
        (Except.ok "a".toList)).llmInvoked = false ∧
     (backend_chat true "q".toList (Except.error "index down".toList)
        (Except.ok "a".toList)).status = 500) := by
  decide

/-- C4 (amended): with services available, a zero-match query result makes
the backend chat handler return the canned no-information response with an
empty source list and without invoking the LLM; and conversely, this is the
only path producing a successful (status 200) response that bypasses the
LLM call — the other LLM-free exits are the 503 and 500 error exits. -/
theorem backend_chat_zero_match_canned (available : Bool) (message : List Char)
    (queryRes : Except (List Char) (List RMatch))
    (llmRes : Except (List Char) (List Char)) :
    (available = true → queryRes = Except.ok [] →
      backend_chat available message queryRes llmRes =
        ⟨200, cannedNoInfo, [], none, false⟩) ∧
    ((backend_chat available message queryRes llmRes).status = 200 →
      (backend_chat available message queryRes llmRes).llmInvoked = false →
      queryRes = Except.ok [] ∧
      backend_chat available message queryRes llmRes =
        ⟨200, cannedNoInfo, [], none, false⟩) := by
  constructor
  · rintro rfl rfl
    rfl
  · intro h200 hllm
    cases available with
    | false =>
      rw [show backend_chat false message queryRes llmRes =
        ⟨503, servicesUnavailableDetail, [], none, false⟩ from rfl] at h200
      exact absurd h200 (by decide)
    | true =>
      cases queryRes with
      | error e =>
        rw [show backend_chat true message (Except.error e) llmRes =
          ⟨500, e, [], none, false⟩ from rfl] at h200
        exact absurd h200 (by simp)
      | ok ms =>
        cases ms with
        | nil => exact ⟨rfl, rfl⟩
        | cons m rest =>
          cases llmRes with
          | error e =>
            rw [show backend_chat true message (Except.ok (m :: rest))
              (Except.error e) = ⟨500, e, [], none, true⟩ from rfl] at h200
            exact absurd h200 (by simp)
          | ok a =>
            rw [show backend_chat true message (Except.ok (m :: rest))
              (Except.ok a) = ⟨200, a, ((m :: rest).map RMatch.filename).dedup,
                some (m :: rest).length, true⟩ from rfl] at hllm
            exact absurd hllm (by simp)

/-- Witness for C4 at a concrete empty query result. -/
theorem backend_chat_zero_match_canned_witness :
    backend_chat true "q".toList (Except.ok []) (Except.ok "a".toList) =
      ⟨200, cannedNoInfo, [], none, false⟩ :=
  (backend_chat_zero_match_canned true "q".toList (Except.ok [])
    (Except.ok "a".toList)).1 rfl rfl

/-- Counterexample to C8 as stated: in the USDA-variant chat an LLM failure
yields a 500 whose detail is a fixed generic message that does not contain
the underlying error text, and a domain-API (USDA search) failure yields no
error at all — the request still succeeds with status 200. -/
theorem usda_chat_error_message_generic :
    (usda_chat true "hi".toList none none
      (Except.error "boom".toList)).status = 500 ∧
    containsChars "boom".toList
      (usda_chat true "hi".toList none none
        (Except.error "boom".toList)).response = false ∧
    (usda_chat true "calories in rice please".toList none none
      (Except.ok "answer".toList)).status = 200 := by
  decide

/-- C8 (amended): in the backend chat handler every external-call failure —
index query or LLM completion — yields HTTP 500 with the underlying error
text as the detail; in the USDA-variant chat an LLM failure yields HTTP 500
with a fixed generic detail that omits the underlying error text, and a
USDA search failure is swallowed: the request still succeeds. -/
theorem chat_external_failure_500 (message e : List Char) (m : RMatch)
    (ms : List RMatch) (llmRes : Except (List Char) (List Char))
    (searchRes : Option (List USDAFood)) (detailsRes : Option FoodData)
    (answer : List Char)
    (hmsg : (pyStrip message).isEmpty = false) :
    ((backend_chat true message (Except.error e) llmRes).status = 500 ∧
     (backend_chat true message (Except.error e) llmRes).response = e) ∧
    ((backend_chat true message (Except.ok (m :: ms))
        (Except.error e)).status = 500 ∧
     (backend_chat true message (Except.ok (m :: ms))
        (Except.error e)).response = e) ∧
    ((usda_chat true message searchRes detailsRes
        (Except.error e)).status = 500 ∧
     (usda_chat true message searchRes detailsRes
        (Except.error e)).response = genericChatErrorDetail) ∧
    (usda_chat true message none detailsRes (Except.ok answer)).status = 200 := by
  have hm : message.isEmpty = false := by
    cases message with
    | nil => simp [pyStrip] at hmsg
    | cons a as => rfl
  refine ⟨⟨rfl, rfl⟩, ⟨rfl, rfl⟩, ?_, ?_⟩
  · unfold usda_chat
    simp [hm, hmsg]
  · unfold usda_chat
    simp [hm, hmsg]

/-- Witness for C8 at concrete messages and error texts. -/
theorem chat_external_failure_500_witness :
    (backend_chat true "hi".toList (Except.error "boom".toList)
      (Except.ok "a".toList)).status = 500 ∧
    (backend_chat true "hi".toList (Except.error "boom".toList)
      (Except.ok "a".toList)).response = "boom".toList ∧
    (usda_chat true "hi".toList none none
      (Except.error "boom".toList)).response = genericChatErrorDetail := by
  have h := chat_external_failure_500 "hi".toList "boom".toList
    ⟨"f".toList, "t".toList⟩ [] (Except.ok "a".toList) none none "a".toList
    (by decide)
  exact ⟨h.1.1, h.1.2, h.2.2.1.2⟩

/-- Observable outcome of the upload handler: HTTP status, response detail,
reported chunk count, and whether the temporary file was removed before the
handler finished. -/
structure UploadResult where
  status : Nat
  detail : List Char
  chunks_processed : Option Nat
  tempFileRemoved : Bool
deriving DecidableEq, Repr

/-- Extension check of the upload handler (src/backend/main.py line 75):
`file.filename.endswith((".pdf", ".docx", ".txt"))`. -/
def validExtension (fn : List Char) : Bool :=
  ".pdf".toList.isSuffixOf fn || ".docx".toList.isSuffixOf fn ||
    ".txt".toList.isSuffixOf fn

/-- Model of the `upload` handler of src/backend/main.py (lines 73-111).
Text extraction and the index upsert are oracle inputs whose `Except.error`
cases model raised exceptions.  The temporary file is created after the 400
and 503 guards; inside the `try` block, `os.remove(file_path)` runs on the
success path before returning and in the `except` handler before re-raising,
which `tempFileRemoved` records.  Chunking is pure and cannot raise. -/
def upload (available : Bool) (fn : List Char)
    (extractRes : Except (List Char) (List Char))
    (upsertRes : Except (List Char) Unit) : UploadResult :=
  if validExtension fn = false then
    ⟨400, "Only PDF, DOCX, TXT files supported".toList, none, false⟩
  else if available = false then
    ⟨503, servicesUnavailableDetail, none, false⟩
  else
    match extractRes with
    | .error e => ⟨500, e, none, true⟩
    | .ok text =>
      match upsertRes with
      | .error e => ⟨500, e, none, true⟩
      | .ok _ => ⟨200, "success".toList, some (chunk_text text).length, true⟩

/-- C9: every upload request that reaches text extraction — a valid extension
and available services — removes the temporary file, whether extraction,
chunking and upsert all succeed or either external step raises. -/
theorem upload_removes_temp_file (available : Bool) (fn : List Char)
    (extractRes : Except (List Char) (List Char))
    (upsertRes : Except (List Char) Unit)
    (hext : validExtension fn = true) (hav : available = true) :
    (upload available fn extractRes upsertRes).tempFileRemoved = true := by
  subst hav
  unfold upload
  rw [hext]
  cases extractRes with
  | error e => rfl
  | ok text =>
    cases upsertRes with
    | error e => rfl
    | ok u => rfl

/-- Witness for C9 at a failing extraction on a `.txt` upload. -/
theorem upload_removes_temp_file_witness :
    (upload true "notes.txt".toList (Except.error "bad utf-8".toList)
      (Except.ok ())).tempFileRemoved = true :=
  upload_removes_temp_file true "notes.txt".toList
    (Except.error "bad utf-8".toList) (Except.ok ()) (by decide) rfl

/-- C10: every successful (status 200) response of the USDA-variant chat has
`Claude AI` among its sources; the sources are exactly
`[Claude AI, USDA FoodData Central]` precisely when the enrichment context is
non-empty and exactly `[Claude AI]` precisely when it is empty; and
`usda_data_used` is true if and only if the context is non-empty. -/
theorem usda_chat_sources_invariant (claudeAvailable : Bool)
    (message : List Char) (searchRes : Option (List USDAFood))
    (detailsRes : Option FoodData)
    (llmRes : Except (List Char) (List Char))
    (h200 : (usda_chat claudeAvailable message searchRes detailsRes
      llmRes).status = 200) :
    sourceClaude ∈
      (usda_chat claudeAvailable message searchRes detailsRes llmRes).sources ∧
    ((usda_chat claudeAvailable message searchRes detailsRes llmRes).sources =
        [sourceClaude, sourceUSDA] ↔
      usda_context message searchRes detailsRes ≠ []) ∧
    ((usda_chat claudeAvailable message searchRes detailsRes llmRes).sources =
        [sourceClaude] ↔
      usda_context message searchRes detailsRes = []) ∧
    ((usda_chat claudeAvailable message searchRes detailsRes
        llmRes).usda_data_used = true ↔
      usda_context message searchRes detailsRes ≠ []) := by
  cases claudeAvailable with
  | false =>
    rw [show usda_chat false message searchRes detailsRes llmRes =
      ⟨503, claudeUnavailableDetail, [], false, false⟩ from rfl] at h200
    exact absurd h200 (by decide)
  | true =>
    by_cases hval : (message.isEmpty || (pyStrip message).isEmpty) = true
    · rw [show usda_chat true message searchRes detailsRes llmRes =
        ⟨400, emptyMessageDetail, [], false, false⟩ from by
          unfold usda_chat; simp [hval]] at h200
      exact absurd h200 (by decide)
    · cases llmRes with
      | error e =>
        rw [show usda_chat true message searchRes detailsRes (Except.error e) =
          ⟨500, genericChatErrorDetail, [], false, true⟩ from by
            unfold usda_chat; simp only [Bool.not_eq_true] at hval
            simp [hval]] at h200
        exact absurd h200 (by decide)
      | ok answer =>
        have hres : usda_chat true message searchRes detailsRes
            (Except.ok answer) =
          ⟨200, answer,
           if (usda_context message searchRes detailsRes).isEmpty
           then [sourceClaude] else [sourceClaude, sourceUSDA],
           !(usda_context message searchRes detailsRes).isEmpty, true⟩ := by
          unfold usda_chat
          simp only [Bool.not_eq_true] at hval
          simp [hval]
        rw [hres]
        cases hctx : (usda_context message searchRes detailsRes).isEmpty with
        | true =>
          have hnil : usda_context message searchRes detailsRes = [] := by
            simpa using hctx
          simp [hctx, hnil]
        | false =>
          have hnil : usda_context message searchRes detailsRes ≠ [] := by
            simpa using hctx
          simp [hctx, hnil]

/-- Witness for C10 at a concrete successful request without enrichment. -/
theorem usda_chat_sources_invariant_witness :
    sourceClaude ∈ (usda_chat true "hi".toList none none
      (Except.ok "a".toList)).sources :=
  (usda_chat_sources_invariant true "hi".toList none none
    (Except.ok "a".toList) rfl).1
